import Mathlib

/-
  Verification development for the LifeSimulation repository.

  The particle-life core (force law, pairwise force guard, interaction
  matrix, particle store, integrator, spatial grid, Barnes-Hut quadtree)
  is shallowly embedded in Lean.  Float-valued quantities of the C++
  code are modelled as exact rationals; where the code calls the float
  sqrt / log routines, the embedding takes those routines as explicit
  function parameters so that every definition stays computable.
-/

set_option maxRecDepth 1000000

namespace Particle

/-- Repulsion core parameter; `Particle::BETA = 0.3F` in the source. -/
def BETA : ℚ := 3 / 10

/-- Translation of the scalar branch of `Particle::calculateForce`:
if `r_norm < BETA` return `r_norm / BETA - 1`; else if `r_norm < 1`
return `a * (1 - |2 r_norm - 1 - BETA| / (1 - BETA))`; else `0`. -/
def calculateForce (r_norm a : ℚ) : ℚ :=
  if r_norm < BETA then
    r_norm / BETA - 1
  else if r_norm < 1 then
    a * (1 - |2 * r_norm - 1 - BETA| / (1 - BETA))
  else
    0

end Particle

/-- Statement of the force law exactly as the specification displays it,
with explicit half-open intervals `[0, BETA)`, `[BETA, 1)` and `[1, ∞)`.
Used to compare the source translation against the spec's words. -/
def forceLawSpec (r_norm a : ℚ) : ℚ :=
  if 0 ≤ r_norm ∧ r_norm < Particle.BETA then
    r_norm / Particle.BETA - 1
  else if Particle.BETA ≤ r_norm ∧ r_norm < 1 then
    a * (1 - |2 * r_norm - 1 - Particle.BETA| / (1 - Particle.BETA))
  else
    0

namespace ParticleSystem

/-- Interaction cutoff radius, `R_MAX = 60.0F` in `ParticleSystem.h`. -/
def R_MAX : ℚ := 60

/-- Reciprocal cutoff, `invRMax = 1.0F / R_MAX`. -/
def invRMax : ℚ := 1 / R_MAX

/-- Squared cutoff, `R_MAX_SQR = R_MAX * R_MAX`. -/
def R_MAX_SQR : ℚ := R_MAX * R_MAX

/-- Translation of the guard in `ParticleSystem::shouldComputeForce`:
skip self pairs, inactive partners, near-coincident pairs
(`distSqr < 2.5F`) and out-of-range pairs (`distSqr >= R_MAX_SQR`). -/
def shouldComputeForce (i j : ℕ) (activeJ : Bool) (dist : ℚ × ℚ) : Bool :=
  if i = j ∨ activeJ = false then
    false
  else
    let distSqr := dist.1 * dist.1 + dist.2 * dist.2
    if distSqr < 5 / 2 ∨ R_MAX_SQR ≤ distSqr then false else true

/-- Pairwise force contribution of particle `j` to particle `i`, as
accumulated by the inner loop of
`ParticleSystem::computeInteractionForcesOMP`: a skipped pair
contributes the zero vector, otherwise the contribution is
`dist * (forceMag * invDist)` with `invDist = 1/sqrt(distSqr)`,
`normDist = distSqr * invDist * invRMax` and
`forceMag = Particle::calculateForce(normDist, interaction)`.
The float square root is passed in as `sqrtQ`. -/
def pairForceContribution (sqrtQ : ℚ → ℚ) (i j : ℕ) (activeJ : Bool)
    (dist : ℚ × ℚ) (interaction : ℚ) : ℚ × ℚ :=
  if shouldComputeForce i j activeJ dist then
    let distSqr := dist.1 * dist.1 + dist.2 * dist.2
    let invDist := 1 / sqrtQ distSqr
    let distance := distSqr * invDist
    let normDist := distance * invRMax
    let forceMag := Particle.calculateForce normDist interaction
    (dist.1 * (forceMag * invDist), dist.2 * (forceMag * invDist))
  else
    (0, 0)

end ParticleSystem

namespace Particle

/-- Translation of the static accessor `Particle::getInteractionStrength`:
the stored strength when both type indices lie in `[0, numParticleTypes)`,
and `0.0F` otherwise.  The C++ `vector` indexing is modelled with an
`Option`-returning lookup so that any out-of-range access of the
backing store would be visible as `none`. -/
def getInteractionStrength (interactionMatrix : List (List ℚ))
    (numParticleTypes : ℤ) (type1 type2 : ℤ) : Option ℚ :=
  if 0 ≤ type1 ∧ type1 < numParticleTypes ∧ 0 ≤ type2 ∧ type2 < numParticleTypes then
    (interactionMatrix[type1.toNat]?).bind fun row => row[type2.toNat]?
  else
    some 0

end Particle

section ForceLawFacts

/-- On the repulsion core the force value is `r/BETA - 1`. -/
theorem calculateForce_of_lt_beta (r a : ℚ) (h : r < Particle.BETA) :
    Particle.calculateForce r a = r / Particle.BETA - 1 := by
  unfold Particle.calculateForce
  rw [if_pos h]

/-- Beyond the cutoff the force value is zero. -/
theorem calculateForce_of_one_le (r a : ℚ) (h : 1 ≤ r) :
    Particle.calculateForce r a = 0 := by
  unfold Particle.calculateForce
  have h1 : ¬ r < Particle.BETA := by
    unfold Particle.BETA
    intro hc
    linarith
  have h2 : ¬ r < 1 := not_lt.mpr h
  rw [if_neg h1, if_neg h2]

/-- Division by `BETA` unfolded to a multiplication, for `linarith`. -/
theorem div_beta_eq (x : ℚ) : x / Particle.BETA = x * (10 / 3) := by
  rw [Particle.BETA]
  ring

/-- At `r_norm = BETA` the attraction-lobe formula evaluates to zero. -/
theorem calculateForce_at_beta (a : ℚ) :
    Particle.calculateForce Particle.BETA a = 0 := by
  unfold Particle.calculateForce
  rw [if_neg (lt_irrefl _), if_pos (by norm_num [Particle.BETA])]
  rw [show 2 * Particle.BETA - 1 - Particle.BETA = -(7 / 10) by norm_num [Particle.BETA]]
  rw [abs_neg, abs_of_nonneg (by norm_num)]
  norm_num [Particle.BETA]

/-- A pair at or beyond the squared cutoff radius fails the force guard. -/
theorem shouldComputeForce_far (i j : ℕ) (activeJ : Bool) (dist : ℚ × ℚ)
    (h : ParticleSystem.R_MAX_SQR ≤ dist.1 * dist.1 + dist.2 * dist.2) :
    ParticleSystem.shouldComputeForce i j activeJ dist = false := by
  unfold ParticleSystem.shouldComputeForce
  split
  · rfl
  · rw [if_pos (Or.inr h)]

/-- A pair below the minimum-distance-squared threshold fails the guard. -/
theorem shouldComputeForce_near (i j : ℕ) (activeJ : Bool) (dist : ℚ × ℚ)
    (h : dist.1 * dist.1 + dist.2 * dist.2 < 5 / 2) :
    ParticleSystem.shouldComputeForce i j activeJ dist = false := by
  unfold ParticleSystem.shouldComputeForce
  split
  · rfl
  · rw [if_pos (Or.inl h)]

end ForceLawFacts

/-- C1: for every `r_norm ≥ 0` and every strength `a`,
`Particle::calculateForce` agrees with the spec's piecewise law
(`r/BETA - 1` on `[0, BETA)`, the attraction lobe on `[BETA, 1)`,
`0` on `[1, ∞)`, with half-open tie-breaks), and on `[0, BETA)`
the value does not depend on `a`. -/
theorem calculateForce_matches_piecewise_law (r r2 a a2 : ℚ)
    (h : 0 ≤ r) (h1 : 0 ≤ r2) (h2 : r2 < Particle.BETA) :
    Particle.calculateForce r a = forceLawSpec r a ∧
    Particle.calculateForce r2 a = Particle.calculateForce r2 a2 := by
  constructor
  · unfold Particle.calculateForce forceLawSpec
    by_cases hb : r < Particle.BETA
    · rw [if_pos hb, if_pos ⟨h, hb⟩]
    · by_cases ho : r < 1
      · rw [if_neg hb, if_pos ho, if_neg (by tauto), if_pos ⟨not_lt.mp hb, ho⟩]
      · rw [if_neg hb, if_neg ho, if_neg (by tauto), if_neg (by tauto)]
  · rw [calculateForce_of_lt_beta r2 a h2, calculateForce_of_lt_beta r2 a2 h2]

/-- Witness for C1 at `r = 1/2`, `r2 = 1/10`, `a = 3`, `a2 = 4`. -/
theorem calculateForce_matches_piecewise_law_witness :
    Particle.calculateForce (1 / 2) 3 = forceLawSpec (1 / 2) 3 ∧
    Particle.calculateForce (1 / 10) 3 = Particle.calculateForce (1 / 10) 4 :=
  calculateForce_matches_piecewise_law (1 / 2) (1 / 10) 3 4 (by norm_num)
    (by norm_num) (by norm_num [Particle.BETA])

/-- C7: on `[0, BETA)` the force value is independent of `a`, strictly
increasing in `r_norm`, strictly negative (hence nonzero), and the force
law first reaches `0` at `r_norm = BETA`. -/
theorem calculateForce_repulsion_zone (a a1 a2 r1 r2 : ℚ)
    (h0 : 0 ≤ r1) (h12 : r1 < r2) (h2 : r2 < Particle.BETA) :
    Particle.calculateForce r1 a1 = Particle.calculateForce r1 a2 ∧
    Particle.calculateForce r1 a < Particle.calculateForce r2 a ∧
    Particle.calculateForce r1 a < 0 ∧
    Particle.calculateForce r1 a ≠ 0 ∧
    Particle.calculateForce Particle.BETA a = 0 := by
  have h1 : r1 < Particle.BETA := lt_trans h12 h2
  have hbound : r2 < 3 / 10 := by rw [Particle.BETA] at h2; exact h2
  have hneg : Particle.calculateForce r1 a < 0 := by
    rw [calculateForce_of_lt_beta r1 a h1, div_beta_eq]
    linarith
  refine ⟨?_, ?_, hneg, ne_of_lt hneg, calculateForce_at_beta a⟩
  · rw [calculateForce_of_lt_beta r1 a1 h1, calculateForce_of_lt_beta r1 a2 h1]
  · rw [calculateForce_of_lt_beta r1 a h1, calculateForce_of_lt_beta r2 a h2,
      div_beta_eq, div_beta_eq]
    linarith

/-- Witness for C7 at `r1 = 1/10`, `r2 = 1/5`, `a = 5`, `a1 = 2`, `a2 = 7`. -/
theorem calculateForce_repulsion_zone_witness :
    Particle.calculateForce (1 / 10) 2 = Particle.calculateForce (1 / 10) 7 ∧
    Particle.calculateForce (1 / 10) 5 < Particle.calculateForce (1 / 5) 5 ∧
    Particle.calculateForce (1 / 10) 5 < 0 ∧
    Particle.calculateForce (1 / 10) 5 ≠ 0 ∧
    Particle.calculateForce Particle.BETA 5 = 0 :=
  calculateForce_repulsion_zone 5 2 7 (1 / 10) (1 / 5) (by norm_num)
    (by norm_num) (by norm_num [Particle.BETA])

/-- C2: a pair at or beyond the squared cutoff radius (or below the
minimum-distance-squared threshold) is skipped by
`shouldComputeForce` and contributes the zero force vector, and
`calculateForce` returns `0` for every `r_norm ≥ 1`. -/
theorem cutoff_pair_contributes_zero (sqrtQ : ℚ → ℚ) (i j : ℕ)
    (activeJ : Bool) (dist : ℚ × ℚ) (a r : ℚ) (hr : 1 ≤ r) :
    (ParticleSystem.R_MAX_SQR ≤ dist.1 * dist.1 + dist.2 * dist.2 →
      ParticleSystem.pairForceContribution sqrtQ i j activeJ dist a = (0, 0)) ∧
    (dist.1 * dist.1 + dist.2 * dist.2 < 5 / 2 →
      ParticleSystem.pairForceContribution sqrtQ i j activeJ dist a = (0, 0)) ∧
    Particle.calculateForce r a = 0 := by
  refine ⟨fun h => ?_, fun h => ?_, calculateForce_of_one_le r a hr⟩
  · unfold ParticleSystem.pairForceContribution
    rw [shouldComputeForce_far i j activeJ dist h]
    rfl
  · unfold ParticleSystem.pairForceContribution
    rw [shouldComputeForce_near i j activeJ dist h]
    rfl

/-- Witness for C2 with `dist = (100, 0)` (far pair) and `r = 3/2`. -/
theorem cutoff_pair_contributes_zero_witness :
    (ParticleSystem.R_MAX_SQR ≤ (100 : ℚ) * 100 + 0 * 0 →
      ParticleSystem.pairForceContribution id 0 1 true ((100 : ℚ), (0 : ℚ)) 2 = (0, 0)) ∧
    ((100 : ℚ) * 100 + 0 * 0 < 5 / 2 →
      ParticleSystem.pairForceContribution id 0 1 true ((100 : ℚ), (0 : ℚ)) 2 = (0, 0)) ∧
    Particle.calculateForce (3 / 2) 2 = 0 :=
  cutoff_pair_contributes_zero id 0 1 true (100, 0) 2 (3 / 2) (by norm_num)

/-- C5: on a well-formed `numTypes × numTypes` matrix the lookup never
fails: it returns the stored entry when both indices are in range and
the neutral value `0` when either index is out of `[0, numTypes)`. -/
theorem getInteractionStrength_total (m : List (List ℚ)) (k : ℕ) (n : ℤ)
    (hlen : m.length = k) (hrows : ∀ row ∈ m, row.length = k) (hk : n = (k : ℤ)) :
    (∀ t1 t2 : ℤ, ∃ q : ℚ, Particle.getInteractionStrength m n t1 t2 = some q) ∧
    (∀ t1 t2 : ℤ, ¬(0 ≤ t1 ∧ t1 < n ∧ 0 ≤ t2 ∧ t2 < n) →
      Particle.getInteractionStrength m n t1 t2 = some 0) ∧
    (∀ (i j : ℕ) (row : List ℚ) (v : ℚ), i < k → j < k →
      m[i]? = some row → row[j]? = some v →
      Particle.getInteractionStrength m n (i : ℤ) (j : ℤ) = some v) := by
  refine ⟨?_, ?_, ?_⟩
  · intro t1 t2
    unfold Particle.getInteractionStrength
    by_cases hc : 0 ≤ t1 ∧ t1 < n ∧ 0 ≤ t2 ∧ t2 < n
    · rw [if_pos hc]
      obtain ⟨ha, hb, hcd, hd⟩ := hc
      have h1 : t1.toNat < m.length := by omega
      have h2 : t2.toNat < (m[t1.toNat]).length := by
        have := hrows (m[t1.toNat]) (List.getElem_mem h1)
        omega
      refine ⟨(m[t1.toNat])[t2.toNat], ?_⟩
      rw [List.getElem?_eq_getElem h1]
      show (m[t1.toNat])[t2.toNat]? = _
      rw [List.getElem?_eq_getElem h2]
    · rw [if_neg hc]
      exact ⟨0, rfl⟩
  · intro t1 t2 hc
    unfold Particle.getInteractionStrength
    rw [if_neg hc]
  · intro i j row v hi hj hrow hv
    unfold Particle.getInteractionStrength
    have hc : 0 ≤ (i : ℤ) ∧ (i : ℤ) < n ∧ 0 ≤ (j : ℤ) ∧ (j : ℤ) < n := by omega
    rw [if_pos hc]
    have h1 : (i : ℤ).toNat = i := Int.toNat_natCast i
    have h2 : (j : ℤ).toNat = j := Int.toNat_natCast j
    rw [h1, h2, hrow]
    exact hv

/-- Witness for C5 on the concrete 2×2 matrix `[[1,2],[3,4]]`. -/
theorem getInteractionStrength_total_witness :
    (∀ t1 t2 : ℤ, ∃ q : ℚ,
      Particle.getInteractionStrength [[1, 2], [3, 4]] 2 t1 t2 = some q) ∧
    (∀ t1 t2 : ℤ, ¬(0 ≤ t1 ∧ t1 < 2 ∧ 0 ≤ t2 ∧ t2 < 2) →
      Particle.getInteractionStrength [[1, 2], [3, 4]] 2 t1 t2 = some 0) ∧
    (∀ (i j : ℕ) (row : List ℚ) (v : ℚ), i < 2 → j < 2 →
      [[(1 : ℚ), 2], [3, 4]][i]? = some row → row[j]? = some v →
      Particle.getInteractionStrength [[1, 2], [3, 4]] 2 (i : ℤ) (j : ℤ) = some v) :=
  getInteractionStrength_total [[1, 2], [3, 4]] 2 2 rfl
    (by
      intro row hrow
      simp only [List.mem_cons, List.not_mem_nil, or_false] at hrow
      rcases hrow with h | h <;> rw [h] <;> rfl)
    rfl

/-- Per-particle state held by the store: position, velocity,
acceleration, radius and the active flag (`Particle` fields; the
rendering-only color is not modelled). -/
structure ParticleState where
  px : ℚ
  py : ℚ
  vx : ℚ
  vy : ℚ
  ax : ℚ
  ay : ℚ
  radius : ℚ
  active : Bool

/-- State produced by the default `Particle::Particle()` constructor:
zero position/velocity/acceleration, radius `5.0F`, active. -/
def defaultParticle : ParticleState :=
  { px := 0, py := 0, vx := 0, vy := 0, ax := 0, ay := 0, radius := 5, active := true }

namespace ParticleSystem

/-- The `ParticleSystem` members touched by particle creation:
the particle vector, the capacity and the round-robin cursor. -/
structure SystemState where
  particles : List ParticleState
  maxParticles : ℕ
  nextParticleIndex : ℕ

/-- Index of the first inactive particle in the store, mirroring the
recycling scan `for (auto &particle : particles) if (!particle.isActive())`. -/
def firstInactiveIdx : List ParticleState → Option ℕ
  | [] => none
  | p :: rest =>
    if p.active then (firstInactiveIdx rest).map (fun n => n + 1) else some 0

/-- Translation of `ParticleSystem::createParticle`: append a fresh
default particle while under capacity; otherwise return the first
inactive slot; otherwise cycle round-robin via `nextParticleIndex`.
The returned number is the index of the particle whose reference the
C++ function returns. -/
def createParticle (s : SystemState) : SystemState × ℕ :=
  if s.particles.length < s.maxParticles then
    ({ s with particles := s.particles ++ [defaultParticle] }, s.particles.length)
  else
    match firstInactiveIdx s.particles with
    | some i => (s, i)
    | none =>
      ({ s with nextParticleIndex := s.nextParticleIndex + 1 },
        s.nextParticleIndex % s.particles.length)

/-- Particle emitted by `ParticleSystem::emitParticles`: a default
particle with the requested position, radius and velocity set. -/
def emittedParticle (pos : ℚ × ℚ) (radius : ℚ) (vel : ℚ × ℚ) : ParticleState :=
  { px := pos.1, py := pos.2, vx := vel.1, vy := vel.2,
    ax := 0, ay := 0, radius := radius, active := true }

/-- Translation of `ParticleSystem::emitParticles`: `count` iterations,
each appending one configured particle only while the store is below
capacity (the `lifetime` argument is `[[maybe_unused]]` in the source). -/
def emitParticles (count : ℕ) (pos : ℚ × ℚ) (radius lifetime : ℚ)
    (vel : ℚ × ℚ) (s : SystemState) : SystemState :=
  match count with
  | 0 => s
  | n + 1 =>
    emitParticles n pos radius lifetime vel
      (if s.particles.length < s.maxParticles then
        { s with particles := s.particles ++ [emittedParticle pos radius vel] }
      else s)

/-- Translation of `ParticleSystem::getParticleCount`. -/
def getParticleCount (s : SystemState) : ℕ := s.particles.length

end ParticleSystem

section StoreFacts

open ParticleSystem

/-- The recycling scan finds nothing exactly when every particle is active. -/
theorem firstInactiveIdx_eq_none_iff (l : List ParticleState) :
    firstInactiveIdx l = none ↔ ∀ p ∈ l, p.active = true := by
  induction l with
  | nil => simp [firstInactiveIdx]
  | cons p rest ih =>
    unfold firstInactiveIdx
    by_cases hp : p.active
    · rw [if_pos hp]
      simp [Option.map_eq_none', ih, hp]
    · rw [if_neg hp]
      simp only [Bool.not_eq_true] at hp
      simp [hp]

/-- When the recycling scan returns an index, that slot is inactive. -/
theorem firstInactiveIdx_some (l : List ParticleState) (i : ℕ)
    (h : firstInactiveIdx l = some i) :
    ∃ p, l[i]? = some p ∧ p.active = false := by
  induction l generalizing i with
  | nil => simp [firstInactiveIdx] at h
  | cons p rest ih =>
    unfold firstInactiveIdx at h
    by_cases hp : p.active
    · rw [if_pos hp] at h
      rcases Option.map_eq_some'.mp h with ⟨j, hj, rfl⟩
      rcases ih j hj with ⟨q, hq, hqa⟩
      exact ⟨q, by simpa using hq, hqa⟩
    · rw [if_neg hp] at h
      cases h
      simp only [Bool.not_eq_true] at hp
      exact ⟨p, by simp, hp⟩

/-- The found index is a valid position of the store. -/
theorem firstInactiveIdx_lt (l : List ParticleState) (i : ℕ)
    (h : firstInactiveIdx l = some i) : i < l.length := by
  rcases firstInactiveIdx_some l i h with ⟨p, hp, _⟩
  exact (List.getElem?_eq_some.mp hp).1

end StoreFacts

section StoreClaims

open ParticleSystem

/-- C3: with the store at capacity, `createParticle` never fails and
never grows the store past `maxParticles`: the returned index is a
valid slot; if some particle is inactive the returned slot is inactive;
and if every particle is active the call cycles round-robin through the
existing slots via `nextParticleIndex`. -/
theorem createParticle_saturated (s : SystemState)
    (h1 : s.particles.length = s.maxParticles) (h2 : 1 ≤ s.maxParticles) :
    (createParticle s).2 < s.maxParticles ∧
    (createParticle s).1.particles.length = s.maxParticles ∧
    ((∀ p ∈ s.particles, p.active = true) →
      (createParticle s).2 = s.nextParticleIndex % s.maxParticles ∧
      (createParticle s).1.particles = s.particles ∧
      (createParticle s).1.nextParticleIndex = s.nextParticleIndex + 1) ∧
    ((∃ p ∈ s.particles, p.active = false) →
      (∃ p, s.particles[(createParticle s).2]? = some p ∧ p.active = false) ∧
      (createParticle s).1 = s) := by
  have hnl : ¬ s.particles.length < s.maxParticles := by omega
  have hcp : createParticle s =
      match firstInactiveIdx s.particles with
      | some i => (s, i)
      | none =>
        ({ s with nextParticleIndex := s.nextParticleIndex + 1 },
          s.nextParticleIndex % s.particles.length) := by
    unfold createParticle
    rw [if_neg hnl]
  cases hfi : firstInactiveIdx s.particles with
  | none =>
    rw [hfi] at hcp
    have hall : ∀ p ∈ s.particles, p.active = true :=
      (firstInactiveIdx_eq_none_iff s.particles).mp hfi
    rw [hcp]
    refine ⟨?_, h1, fun _ => ⟨?_, rfl, rfl⟩, fun hex => ?_⟩
    · show s.nextParticleIndex % s.particles.length < s.maxParticles
      have : s.nextParticleIndex % s.particles.length < s.particles.length :=
        Nat.mod_lt _ (by omega)
      omega
    · show s.nextParticleIndex % s.particles.length = s.nextParticleIndex % s.maxParticles
      rw [h1]
    · rcases hex with ⟨p, hp, hpa⟩
      rw [hall p hp] at hpa
      cases hpa
  | some i =>
    rw [hfi] at hcp
    rcases firstInactiveIdx_some s.particles i hfi with ⟨p, hp, hpa⟩
    have hilt : i < s.particles.length := firstInactiveIdx_lt s.particles i hfi
    rw [hcp]
    refine ⟨by show i < s.maxParticles; omega, h1, fun hall => ?_,
      fun _ => ⟨⟨p, hp, hpa⟩, rfl⟩⟩
    have hmem : p ∈ s.particles := by
      have := List.getElem?_eq_some.mp hp
      rcases this with ⟨hlt, hget⟩
      rw [← hget]
      exact List.getElem_mem hlt
    have := hall p hmem
    rw [this] at hpa
    cases hpa

/-- Witness for C3: a saturated two-slot store whose particles are all
active; the cursor sits at 5 so the round-robin slot is `5 % 2 = 1`. -/
theorem createParticle_saturated_witness :
    (createParticle ⟨[defaultParticle, defaultParticle], 2, 5⟩).2 < 2 ∧
    (createParticle ⟨[defaultParticle, defaultParticle], 2, 5⟩).1.particles.length = 2 ∧
    ((∀ p ∈ ([defaultParticle, defaultParticle] : List ParticleState), p.active = true) →
      (createParticle ⟨[defaultParticle, defaultParticle], 2, 5⟩).2 = 5 % 2 ∧
      (createParticle ⟨[defaultParticle, defaultParticle], 2, 5⟩).1.particles =
        [defaultParticle, defaultParticle] ∧
      (createParticle ⟨[defaultParticle, defaultParticle], 2, 5⟩).1.nextParticleIndex = 5 + 1) ∧
    ((∃ p ∈ ([defaultParticle, defaultParticle] : List ParticleState), p.active = false) →
      (∃ p, ([defaultParticle, defaultParticle] :
          List ParticleState)[(createParticle ⟨[defaultParticle, defaultParticle], 2, 5⟩).2]? =
            some p ∧ p.active = false) ∧
      (createParticle ⟨[defaultParticle, defaultParticle], 2, 5⟩).1 =
        ⟨[defaultParticle, defaultParticle], 2, 5⟩) :=
  createParticle_saturated ⟨[defaultParticle, defaultParticle], 2, 5⟩ rfl (by norm_num)

/-- Each emission step leaves a full store unchanged. -/
theorem emitParticles_of_full (count : ℕ) (pos : ℚ × ℚ) (radius lifetime : ℚ)
    (vel : ℚ × ℚ) (s : SystemState) (h : ¬ s.particles.length < s.maxParticles) :
    emitParticles count pos radius lifetime vel s = s := by
  induction count with
  | zero => rfl
  | succ n ih =>
    show emitParticles n pos radius lifetime vel
        (if s.particles.length < s.maxParticles then
          { s with particles := s.particles ++ [emittedParticle pos radius vel] }
        else s) = s
    rw [if_neg h]
    exact ih

/-- Length evolution of `emitParticles`. -/
theorem emitParticles_length (count : ℕ) (pos : ℚ × ℚ) (radius lifetime : ℚ)
    (vel : ℚ × ℚ) (s : SystemState) (h : s.particles.length ≤ s.maxParticles) :
    (emitParticles count pos radius lifetime vel s).particles.length =
      min (s.particles.length + count) s.maxParticles := by
  induction count generalizing s with
  | zero =>
    show s.particles.length = _
    omega
  | succ n ih =>
    show (emitParticles n pos radius lifetime vel
        (if s.particles.length < s.maxParticles then
          { s with particles := s.particles ++ [emittedParticle pos radius vel] }
        else s)).particles.length = _
    by_cases hlt : s.particles.length < s.maxParticles
    · rw [if_pos hlt]
      rw [ih { s with particles := s.particles ++ [emittedParticle pos radius vel] }
        (by dsimp only; simp only [List.length_append, List.length_singleton]; omega)]
      dsimp only
      simp only [List.length_append, List.length_singleton]
      omega
    · rw [if_neg hlt]
      rw [ih s h]
      omega

/-- The emission capacity matters: `maxParticles` itself never changes. -/
theorem emitParticles_max (count : ℕ) (pos : ℚ × ℚ) (radius lifetime : ℚ)
    (vel : ℚ × ℚ) (s : SystemState) :
    (emitParticles count pos radius lifetime vel s).maxParticles = s.maxParticles := by
  induction count generalizing s with
  | zero => rfl
  | succ n ih =>
    show (emitParticles n pos radius lifetime vel
        (if s.particles.length < s.maxParticles then
          { s with particles := s.particles ++ [emittedParticle pos radius vel] }
        else s)).maxParticles = _
    rw [ih]
    split <;> rfl

/-- C10: `emitParticles` appends only while the store is below capacity;
a full store is left completely unchanged (no recycling, no error) and
afterwards `getParticleCount` equals `min(previous + count, maxParticles)`. -/
theorem emitParticles_appends_only_below_capacity (count : ℕ) (pos : ℚ × ℚ)
    (radius lifetime : ℚ) (vel : ℚ × ℚ) (s : SystemState)
    (h : s.particles.length ≤ s.maxParticles) :
    getParticleCount (emitParticles count pos radius lifetime vel s) =
      min (getParticleCount s + count) s.maxParticles ∧
    (getParticleCount s = s.maxParticles →
      emitParticles count pos radius lifetime vel s = s) :=
  ⟨emitParticles_length count pos radius lifetime vel s h,
    fun hfull => emitParticles_of_full count pos radius lifetime vel s (by
      unfold getParticleCount at hfull
      omega)⟩

/-- Witness for C10: emitting 3 particles into an empty two-slot store. -/
theorem emitParticles_appends_only_below_capacity_witness :
    getParticleCount (emitParticles 3 (0, 0) 10 5 (0, 0) ⟨[], 2, 0⟩) =
      min (getParticleCount ⟨[], 2, 0⟩ + 3) 2 ∧
    (getParticleCount (⟨[], 2, 0⟩ : SystemState) = 2 →
      emitParticles 3 (0, 0) 10 5 (0, 0) ⟨[], 2, 0⟩ = ⟨[], 2, 0⟩) :=
  emitParticles_appends_only_below_capacity 3 (0, 0) 10 5 (0, 0) ⟨[], 2, 0⟩ (by norm_num)

end StoreClaims

namespace Particle

/-- Boundary globals of the `simulation` namespace that
`Particle::update` reads. -/
structure SimulationConfig where
  enableBounds : Bool
  boundaryLeft : ℚ
  boundaryRight : ℚ
  boundaryTop : ℚ
  boundaryBottom : ℚ

/-- Translation of `Particle::update` (Particle.cpp scalar version):
inactive particles are untouched; otherwise
`velocity += acceleration * dt`, `position += velocity * dt`, and when
bounds are enabled each axis is checked independently against
`±(halfExtent - radius)`: an out-of-range coordinate is clamped to the
bound and the matching velocity component is damped by `* -0.9`. -/
def update (cfg : SimulationConfig) (dt : ℚ) (p : ParticleState) : ParticleState :=
  if p.active = false then
    p
  else
    let vx := p.vx + p.ax * dt
    let vy := p.vy + p.ay * dt
    let px := p.px + vx * dt
    let py := p.py + vy * dt
    if cfg.enableBounds then
      let boundsX := (cfg.boundaryRight - cfg.boundaryLeft) / 2 - p.radius
      let boundsY := (cfg.boundaryBottom - cfg.boundaryTop) / 2 - p.radius
      let xres :=
        if px > boundsX then (boundsX, vx * (-9 / 10))
        else if px < -boundsX then (-boundsX, vx * (-9 / 10))
        else (px, vx)
      let yres :=
        if py > boundsY then (boundsY, vy * (-9 / 10))
        else if py < -boundsY then (-boundsY, vy * (-9 / 10))
        else (py, vy)
      { p with px := xres.1, py := yres.1, vx := xres.2, vy := yres.2 }
    else
      { p with px := px, py := py, vx := vx, vy := vy }

end Particle

section IntegratorFacts

/-- Updating never changes the active flag. -/
theorem update_active (cfg : Particle.SimulationConfig) (dt : ℚ)
    (p : ParticleState) : (Particle.update cfg dt p).active = p.active := by
  unfold Particle.update
  split
  · rfl
  · split <;> rfl

/-- With bounds enabled and a nonnegative clamp extent, one update step
leaves an active particle inside `[-boundsX, boundsX] × [-boundsY, boundsY]`. -/
theorem update_within_bounds (cfg : Particle.SimulationConfig) (dt : ℚ)
    (p : ParticleState) (hb : cfg.enableBounds = true) (ha : p.active = true)
    (hx : 0 ≤ (cfg.boundaryRight - cfg.boundaryLeft) / 2 - p.radius)
    (hy : 0 ≤ (cfg.boundaryBottom - cfg.boundaryTop) / 2 - p.radius) :
    -((cfg.boundaryRight - cfg.boundaryLeft) / 2 - p.radius) ≤
        (Particle.update cfg dt p).px ∧
    (Particle.update cfg dt p).px ≤ (cfg.boundaryRight - cfg.boundaryLeft) / 2 - p.radius ∧
    -((cfg.boundaryBottom - cfg.boundaryTop) / 2 - p.radius) ≤
        (Particle.update cfg dt p).py ∧
    (Particle.update cfg dt p).py ≤ (cfg.boundaryBottom - cfg.boundaryTop) / 2 - p.radius := by
  unfold Particle.update
  rw [ha]
  simp only [Bool.true_eq_false, if_false, hb, if_true]
  set boundsX := (cfg.boundaryRight - cfg.boundaryLeft) / 2 - p.radius with hbx
  set boundsY := (cfg.boundaryBottom - cfg.boundaryTop) / 2 - p.radius with hby
  set px := p.px + (p.vx + p.ax * dt) * dt with hpx
  set py := p.py + (p.vy + p.ay * dt) * dt with hpy
  refine ⟨?_, ?_, ?_, ?_⟩ <;> dsimp only <;> split_ifs <;> dsimp only <;> linarith

end IntegratorFacts

/-- C6: with bounds enabled, each `Particle::update` handles the two axes
independently — a coordinate beyond `±(halfExtent - radius)` is clamped
to that bound and the matching velocity component is multiplied by
`-0.9` — and after the update, and after any `n ≥ 1` consecutive
updates, an active particle's position stays within the boundary minus
its radius on both axes. -/
theorem update_reflects_and_stays_in_bounds (cfg : Particle.SimulationConfig)
    (dt : ℚ) (p : ParticleState) (n : ℕ) (hb : cfg.enableBounds = true)
    (ha : p.active = true)
    (hx : 0 ≤ (cfg.boundaryRight - cfg.boundaryLeft) / 2 - p.radius)
    (hy : 0 ≤ (cfg.boundaryBottom - cfg.boundaryTop) / 2 - p.radius)
    (hn : 1 ≤ n) :
    (p.px + (p.vx + p.ax * dt) * dt > (cfg.boundaryRight - cfg.boundaryLeft) / 2 - p.radius →
      (Particle.update cfg dt p).px = (cfg.boundaryRight - cfg.boundaryLeft) / 2 - p.radius ∧
      (Particle.update cfg dt p).vx = (p.vx + p.ax * dt) * (-9 / 10)) ∧
    (p.px + (p.vx + p.ax * dt) * dt < -((cfg.boundaryRight - cfg.boundaryLeft) / 2 - p.radius) →
      (Particle.update cfg dt p).px = -((cfg.boundaryRight - cfg.boundaryLeft) / 2 - p.radius) ∧
      (Particle.update cfg dt p).vx = (p.vx + p.ax * dt) * (-9 / 10)) ∧
    (p.py + (p.vy + p.ay * dt) * dt > (cfg.boundaryBottom - cfg.boundaryTop) / 2 - p.radius →
      (Particle.update cfg dt p).py = (cfg.boundaryBottom - cfg.boundaryTop) / 2 - p.radius ∧
      (Particle.update cfg dt p).vy = (p.vy + p.ay * dt) * (-9 / 10)) ∧
    (p.py + (p.vy + p.ay * dt) * dt < -((cfg.boundaryBottom - cfg.boundaryTop) / 2 - p.radius) →
      (Particle.update cfg dt p).py = -((cfg.boundaryBottom - cfg.boundaryTop) / 2 - p.radius) ∧
      (Particle.update cfg dt p).vy = (p.vy + p.ay * dt) * (-9 / 10)) ∧
    (-((cfg.boundaryRight - cfg.boundaryLeft) / 2 - p.radius) ≤
        ((Particle.update cfg dt)^[n] p).px ∧
      ((Particle.update cfg dt)^[n] p).px ≤
        (cfg.boundaryRight - cfg.boundaryLeft) / 2 - p.radius ∧
      -((cfg.boundaryBottom - cfg.boundaryTop) / 2 - p.radius) ≤
        ((Particle.update cfg dt)^[n] p).py ∧
      ((Particle.update cfg dt)^[n] p).py ≤
        (cfg.boundaryBottom - cfg.boundaryTop) / 2 - p.radius) := by
  have hstep : ∀ q : ParticleState, q.active = true → q.radius = p.radius →
      (Particle.update cfg dt q).radius = p.radius ∧
      (Particle.update cfg dt q).active = true := by
    intro q hqa hqr
    constructor
    · unfold Particle.update
      rw [hqa]
      simp only [Bool.true_eq_false, if_false, hb, if_true]
      exact hqr
    · rw [update_active]
      exact hqa
  have hiter : ∀ m : ℕ, ((Particle.update cfg dt)^[m] p).active = true ∧
      ((Particle.update cfg dt)^[m] p).radius = p.radius := by
    intro m
    induction m with
    | zero => exact ⟨ha, rfl⟩
    | succ k ih =>
      rw [Function.iterate_succ_apply']
      exact ⟨(hstep _ ih.1 ih.2).2, (hstep _ ih.1 ih.2).1⟩
  have hmain : ∀ q : ParticleState, q.active = true → q.radius = p.radius →
      -((cfg.boundaryRight - cfg.boundaryLeft) / 2 - p.radius) ≤
          (Particle.update cfg dt q).px ∧
      (Particle.update cfg dt q).px ≤ (cfg.boundaryRight - cfg.boundaryLeft) / 2 - p.radius ∧
      -((cfg.boundaryBottom - cfg.boundaryTop) / 2 - p.radius) ≤
          (Particle.update cfg dt q).py ∧
      (Particle.update cfg dt q).py ≤ (cfg.boundaryBottom - cfg.boundaryTop) / 2 - p.radius := by
    intro q hqa hqr
    have := update_within_bounds cfg dt q hb hqa (by rw [hqr]; exact hx) (by rw [hqr]; exact hy)
    rw [hqr] at this
    exact this
  refine ⟨fun hover => ?_, fun hunder => ?_, fun hover => ?_, fun hunder => ?_, ?_⟩
  · unfold Particle.update
    rw [ha]
    simp only [Bool.true_eq_false, if_false, hb, if_true]
    rw [if_pos hover]
    exact ⟨rfl, rfl⟩
  · unfold Particle.update
    rw [ha]
    simp only [Bool.true_eq_false, if_false, hb, if_true]
    rw [if_neg (by linarith), if_pos hunder]
    exact ⟨rfl, rfl⟩
  · unfold Particle.update
    rw [ha]
    simp only [Bool.true_eq_false, if_false, hb, if_true]
    rw [if_pos hover]
    exact ⟨rfl, rfl⟩
  · unfold Particle.update
    rw [ha]
    simp only [Bool.true_eq_false, if_false, hb, if_true]
    rw [if_neg (by linarith), if_pos hunder]
    exact ⟨rfl, rfl⟩
  · obtain ⟨m, rfl⟩ : ∃ m, n = m + 1 := ⟨n - 1, by omega⟩
    rw [Function.iterate_succ_apply']
    exact hmain _ (hiter m).1 (hiter m).2

/-- Witness for C6: a particle at `x = 99` moving right with `dt = 1`
inside the 200×200 box centred at the origin, radius 5, two ticks. -/
theorem update_reflects_and_stays_in_bounds_witness :
    (let cfg : Particle.SimulationConfig := ⟨true, -100, 100, -100, 100⟩
     let p : ParticleState := ⟨99, 0, 10, 0, 0, 0, 5, true⟩
     (p.px + (p.vx + p.ax * 1) * 1 > (cfg.boundaryRight - cfg.boundaryLeft) / 2 - p.radius →
       (Particle.update cfg 1 p).px = (cfg.boundaryRight - cfg.boundaryLeft) / 2 - p.radius ∧
       (Particle.update cfg 1 p).vx = (p.vx + p.ax * 1) * (-9 / 10)) ∧
     (p.px + (p.vx + p.ax * 1) * 1 < -((cfg.boundaryRight - cfg.boundaryLeft) / 2 - p.radius) →
       (Particle.update cfg 1 p).px = -((cfg.boundaryRight - cfg.boundaryLeft) / 2 - p.radius) ∧
       (Particle.update cfg 1 p).vx = (p.vx + p.ax * 1) * (-9 / 10)) ∧
     (p.py + (p.vy + p.ay * 1) * 1 > (cfg.boundaryBottom - cfg.boundaryTop) / 2 - p.radius →
       (Particle.update cfg 1 p).py = (cfg.boundaryBottom - cfg.boundaryTop) / 2 - p.radius ∧
       (Particle.update cfg 1 p).vy = (p.vy + p.ay * 1) * (-9 / 10)) ∧
     (p.py + (p.vy + p.ay * 1) * 1 < -((cfg.boundaryBottom - cfg.boundaryTop) / 2 - p.radius) →
       (Particle.update cfg 1 p).py = -((cfg.boundaryBottom - cfg.boundaryTop) / 2 - p.radius) ∧
       (Particle.update cfg 1 p).vy = (p.vy + p.ay * 1) * (-9 / 10)) ∧
     (-((cfg.boundaryRight - cfg.boundaryLeft) / 2 - p.radius) ≤
         ((Particle.update cfg 1)^[2] p).px ∧
       ((Particle.update cfg 1)^[2] p).px ≤
         (cfg.boundaryRight - cfg.boundaryLeft) / 2 - p.radius ∧
       -((cfg.boundaryBottom - cfg.boundaryTop) / 2 - p.radius) ≤
         ((Particle.update cfg 1)^[2] p).py ∧
       ((Particle.update cfg 1)^[2] p).py ≤
         (cfg.boundaryBottom - cfg.boundaryTop) / 2 - p.radius)) :=
  update_reflects_and_stays_in_bounds ⟨true, -100, 100, -100, 100⟩ 1
    ⟨99, 0, 10, 0, 0, 0, 5, true⟩ 2 rfl rfl (by norm_num) (by norm_num) (by norm_num)

namespace ParticleSystem

/-- Particle data read by `ParticleSystem::populateSpatialGrid`. -/
structure GridParticle where
  px : ℚ
  py : ℚ
  active : Bool

/-- C-style truncation toward zero of a rational value, the behaviour of
`static_cast<int>` applied to a float. -/
def truncInt (q : ℚ) : ℤ := q.num.tdiv q.den

/-- Translation of `std::clamp(v, lo, hi)`. -/
def clampInt (v lo hi : ℤ) : ℤ := if v < lo then lo else if hi < v then hi else v

/-- Clamped cell coordinate of one position component, as computed in
`ParticleSystem::populateSpatialGrid`:
`std::clamp(static_cast<int>((pos - boundaryMin) / gridCellSize), 0, extent - 1)`. -/
def cellCoord (boundaryMin cellSize : ℚ) (extent : ℤ) (pos : ℚ) : ℤ :=
  clampInt (truncInt ((pos - boundaryMin) / cellSize)) 0 (extent - 1)

/-- Output of the grid build: per-cell index lists (indexed by the flat
cell number `y * gridWidth + x`), the active-particle list and the
per-particle cell coordinates. -/
structure SpatialGridState where
  cells : ℤ → List ℕ
  activeParticles : List ℕ
  cellX : ℕ → ℤ
  cellY : ℕ → ℤ

/-- The cleared grid the build starts from. -/
def emptyGridState : SpatialGridState :=
  { cells := fun _ => [], activeParticles := [],
    cellX := fun _ => 0, cellY := fun _ => 0 }

/-- Loop of `ParticleSystem::populateSpatialGrid` over the remaining
particles, `i` being the store index of the first listed particle:
inactive particles are skipped; an active particle is recorded in
`activeParticles`, its clamped cell coordinates are stored, and its
index is appended to the list of cell `y * gridWidth + x`. -/
def populateSpatialGridAux (left top cellSize : ℚ) (gridWidth gridHeight : ℤ) :
    List GridParticle → ℕ → SpatialGridState → SpatialGridState
  | [], _, g => g
  | p :: rest, i, g =>
    if p.active then
      let x := cellCoord left cellSize gridWidth p.px
      let y := cellCoord top cellSize gridHeight p.py
      populateSpatialGridAux left top cellSize gridWidth gridHeight rest (i + 1)
        { cells := fun c => if c = y * gridWidth + x then g.cells c ++ [i] else g.cells c,
          activeParticles := g.activeParticles ++ [i],
          cellX := fun n => if n = i then x else g.cellX n,
          cellY := fun n => if n = i then y else g.cellY n }
    else
      populateSpatialGridAux left top cellSize gridWidth gridHeight rest (i + 1) g

/-- Translation of `ParticleSystem::populateSpatialGrid`, starting from
the cleared grid and index `0`. -/
def populateSpatialGrid (left top cellSize : ℚ) (gridWidth gridHeight : ℤ)
    (ps : List GridParticle) : SpatialGridState :=
  populateSpatialGridAux left top cellSize gridWidth gridHeight ps 0 emptyGridState

end ParticleSystem

section GridFacts

open ParticleSystem

/-- Indices below the running counter are never appended again. -/
theorem populateSpatialGridAux_count_lt (left top cellSize : ℚ) (w h : ℤ)
    (ps : List GridParticle) (i : ℕ) (g : SpatialGridState) (idx : ℕ) (c : ℤ)
    (hidx : idx < i) :
    ((populateSpatialGridAux left top cellSize w h ps i g).cells c).count idx =
      (g.cells c).count idx := by
  induction ps generalizing i g with
  | nil => rfl
  | cons p rest ih =>
    show ((populateSpatialGridAux left top cellSize w h
        (p :: rest) i g).cells c).count idx = _
    unfold populateSpatialGridAux
    by_cases hp : p.active
    · rw [if_pos hp]
      rw [ih (i + 1) _ (by omega)]
      dsimp only
      split
      · rw [List.count_append]
        have : List.count idx [i] = 0 := by
          simp [List.count_singleton]
          omega
        omega
      · rfl
    · rw [if_neg hp]
      exact ih (i + 1) g (by omega)

/-- Count of index `i + k` in a cell list after the build, in terms of
the accumulator, the activity of particle `k` and its clamped cell. -/
theorem populateSpatialGridAux_count (left top cellSize : ℚ) (w h : ℤ)
    (ps : List GridParticle) (i : ℕ) (g : SpatialGridState) (k : ℕ)
    (p : GridParticle) (hk : ps[k]? = some p) (c : ℤ) :
    ((populateSpatialGridAux left top cellSize w h ps i g).cells c).count (i + k) =
      (g.cells c).count (i + k) +
        (if p.active = true ∧
            c = (cellCoord top cellSize h p.py) * w + cellCoord left cellSize w p.px then
          1
        else 0) := by
  induction ps generalizing i g k with
  | nil => simp at hk
  | cons q rest ih =>
    cases k with
    | zero =>
      have hq : q = p := by simpa using hk
      subst hq
      unfold populateSpatialGridAux
      by_cases hp : q.active
      · rw [if_pos hp]
        rw [populateSpatialGridAux_count_lt left top cellSize w h rest (i + 1) _ (i + 0) c
          (by omega)]
        dsimp only
        split
        · rename_i hc
          rw [List.count_append]
          rw [if_pos ⟨hp, by omega⟩]
          have : List.count (i + 0) [i] = 1 := by
            simp [List.count_singleton]
          omega
        · rename_i hc
          rw [if_neg (by
            intro hcontra
            exact hc (by omega))]
          omega
      · rw [if_neg hp]
        rw [populateSpatialGridAux_count_lt left top cellSize w h rest (i + 1) g (i + 0) c
          (by omega)]
        rw [if_neg (by
          intro hcontra
          exact hp (by simp [hcontra.1]))]
        omega
    | succ k2 =>
      have hk2 : rest[k2]? = some p := by simpa using hk
      unfold populateSpatialGridAux
      by_cases hp : q.active
      · rw [if_pos hp]
        rw [show i + (k2 + 1) = (i + 1) + k2 by omega]
        rw [ih (i + 1) _ k2 hk2]
        dsimp only
        congr 1
        split
        · rw [List.count_append]
          have : List.count ((i + 1) + k2) [i] = 0 := by
            simp [List.count_singleton]
            omega
          omega
        · rfl
      · rw [if_neg hp]
        rw [show i + (k2 + 1) = (i + 1) + k2 by omega]
        rw [ih (i + 1) g k2 hk2]

/-- After clamping to `[0, n-1]`, C truncation toward zero and
mathematical floor agree. -/
theorem clamp_trunc_eq_clamp_floor (q : ℚ) (n : ℤ) (hn : 1 ≤ n) :
    clampInt (truncInt q) 0 (n - 1) = clampInt ⌊q⌋ 0 (n - 1) := by
  by_cases hq : 0 ≤ q
  · have hnum : 0 ≤ q.num := Rat.num_nonneg.mpr hq
    have hden : (0 : ℤ) ≤ (q.den : ℤ) := by exact_mod_cast Nat.zero_le q.den
    have : truncInt q = ⌊q⌋ := by
      unfold truncInt
      rw [Int.tdiv_eq_ediv hnum hden, Rat.floor_def]
    rw [this]
  · push_neg at hq
    have hnum : q.num < 0 := Rat.num_neg.mpr hq
    have hden : (0 : ℤ) ≤ (q.den : ℤ) := by exact_mod_cast Nat.zero_le q.den
    have htr : truncInt q ≤ 0 := by
      unfold truncInt
      have h1 : 0 ≤ (-q.num).tdiv q.den := Int.tdiv_nonneg (by omega) hden
      have h2 : (-q.num).tdiv q.den = -(q.num.tdiv q.den) := Int.neg_tdiv q.num q.den
      omega
    have hfl : ⌊q⌋ ≤ 0 := by
      have h0 : ⌊q⌋ ≤ ⌊(0 : ℚ)⌋ := Int.floor_le_floor (le_of_lt hq)
      simpa using h0
    unfold clampInt
    split_ifs <;> omega

end GridFacts

section GridClaims

open ParticleSystem

/-- C9: after the spatial grid is built, an active particle's index
appears in exactly one cell list — the cell whose coordinates are
`clamp(floor((position - boundaryMin) / cellSize), 0, extent - 1)` on
each axis — and an inactive particle's index appears in no cell list. -/
theorem populateSpatialGrid_partition (left top cellSize : ℚ) (w h : ℤ)
    (ps : List GridParticle) (k : ℕ) (p : GridParticle)
    (hw : 1 ≤ w) (hh : 1 ≤ h) (hk : ps[k]? = some p) :
    (p.active = true →
      ∀ c : ℤ,
        ((populateSpatialGrid left top cellSize w h ps).cells c).count k =
          if c = (clampInt ⌊(p.py - top) / cellSize⌋ 0 (h - 1)) * w +
              clampInt ⌊(p.px - left) / cellSize⌋ 0 (w - 1) then 1 else 0) ∧
    (p.active = false →
      ∀ c : ℤ, ((populateSpatialGrid left top cellSize w h ps).cells c).count k = 0) := by
  have hx : cellCoord left cellSize w p.px =
      clampInt ⌊(p.px - left) / cellSize⌋ 0 (w - 1) := by
    unfold cellCoord
    exact clamp_trunc_eq_clamp_floor _ w hw
  have hy : cellCoord top cellSize h p.py =
      clampInt ⌊(p.py - top) / cellSize⌋ 0 (h - 1) := by
    unfold cellCoord
    exact clamp_trunc_eq_clamp_floor _ h hh
  constructor
  · intro ha c
    have hcount := populateSpatialGridAux_count left top cellSize w h ps 0
      emptyGridState k p hk c
    rw [Nat.zero_add] at hcount
    unfold populateSpatialGrid
    rw [hcount]
    simp only [emptyGridState, List.count_nil, Nat.zero_add, ha, hx, hy, true_and]
  · intro ha c
    have hcount := populateSpatialGridAux_count left top cellSize w h ps 0
      emptyGridState k p hk c
    rw [Nat.zero_add] at hcount
    unfold populateSpatialGrid
    rw [hcount]
    simp [emptyGridState, ha]

/-- Witness for C9: two particles, one active at `(5, 7)` and one
inactive, on a 2×2 grid of 60-unit cells anchored at the origin. -/
theorem populateSpatialGrid_partition_witness :
    ((GridParticle.mk 5 7 true).active = true →
      ∀ c : ℤ,
        ((populateSpatialGrid 0 0 60 2 2
            [GridParticle.mk 5 7 true, GridParticle.mk 0 0 false]).cells c).count 0 =
          if c = (clampInt ⌊((7 : ℚ) - 0) / 60⌋ 0 (2 - 1)) * 2 +
              clampInt ⌊((5 : ℚ) - 0) / 60⌋ 0 (2 - 1) then 1 else 0) ∧
    ((GridParticle.mk 5 7 true).active = false →
      ∀ c : ℤ,
        ((populateSpatialGrid 0 0 60 2 2
            [GridParticle.mk 5 7 true, GridParticle.mk 0 0 false]).cells c).count 0 = 0) :=
  populateSpatialGrid_partition 0 0 60 2 2
    [GridParticle.mk 5 7 true, GridParticle.mk 0 0 false] 0 (GridParticle.mk 5 7 true)
    (by norm_num) (by norm_num) rfl

end GridClaims

/-- Barnes-Hut quadtree node: particle count, centre of mass, total mass
and half dimension, and either no children (`isLeaf`, i.e. the
`childrenStartIndex == -1` sentinel) or exactly four children. -/
inductive QuadtreeNode where
  | leaf (particleCount : ℕ) (centerOfMass : ℚ × ℚ) (totalMass halfDimension : ℚ)
  | internal (particleCount : ℕ) (centerOfMass : ℚ × ℚ) (totalMass halfDimension : ℚ)
      (c0 c1 c2 c3 : QuadtreeNode)

namespace QuadtreeNode

/-- Number of particles covered by the node. -/
def particleCount : QuadtreeNode → ℕ
  | .leaf n _ _ _ => n
  | .internal n _ _ _ _ _ _ _ => n

/-- Centre of mass of the node. -/
def centerOfMass : QuadtreeNode → ℚ × ℚ
  | .leaf _ com _ _ => com
  | .internal _ com _ _ _ _ _ _ => com

/-- Aggregate mass of the node. -/
def totalMass : QuadtreeNode → ℚ
  | .leaf _ _ m _ => m
  | .internal _ _ m _ _ _ _ _ => m

/-- Half of the node's side length. -/
def halfDimension : QuadtreeNode → ℚ
  | .leaf _ _ _ hd => hd
  | .internal _ _ _ hd _ _ _ _ => hd

/-- Whether the node has no children. -/
def isLeaf : QuadtreeNode → Bool
  | .leaf _ _ _ _ => true
  | .internal _ _ _ _ _ _ _ _ => false

end QuadtreeNode

namespace Quadtree

/-- Barnes-Hut opening-angle parameter, `THETA = 0.5F` in the source. -/
def THETA : ℚ := 1 / 2

/-- Translation of `Quadtree::calculateForceRecursive`: skip empty nodes
and near-coincident centres (`distanceSquared <= 0.0001F`); treat the
node as one point mass at its centre of mass when it is a leaf or
`(2*halfDimension)/distance < THETA`, applying
`F = G*m1*m2/r^2` with the logarithmic soft clamp above `1000`;
otherwise recurse into all four children and accumulate.  The float
`sqrt` and `log` routines are passed in as `sqrtQ` and `logQ`. -/
def calculateForceRecursive (sqrtQ logQ : ℚ → ℚ) (G : ℚ) (targetPos : ℚ × ℚ)
    (targetMass : ℚ) (node : QuadtreeNode) : ℚ × ℚ :=
  if node.particleCount = 0 then (0, 0)
  else
    let direction := (node.centerOfMass.1 - targetPos.1, node.centerOfMass.2 - targetPos.2)
    let distanceSquared := direction.1 * direction.1 + direction.2 * direction.2
    if distanceSquared ≤ 1 / 10000 then (0, 0)
    else if node.isLeaf = true ∨ node.halfDimension * 2 / sqrtQ distanceSquared < THETA then
      let distance := sqrtQ distanceSquared
      let ndir := (direction.1 / distance, direction.2 / distance)
      let forceMagnitude := G * node.totalMass * targetMass / distanceSquared
      let clamped :=
        if forceMagnitude > 1000 then 1000 + logQ (forceMagnitude / 1000) else forceMagnitude
      (ndir.1 * clamped, ndir.2 * clamped)
    else
      match node with
      | .leaf _ _ _ _ => (0, 0)
      | .internal _ _ _ _ c0 c1 c2 c3 =>
        let f0 := calculateForceRecursive sqrtQ logQ G targetPos targetMass c0
        let f1 := calculateForceRecursive sqrtQ logQ G targetPos targetMass c1
        let f2 := calculateForceRecursive sqrtQ logQ G targetPos targetMass c2
        let f3 := calculateForceRecursive sqrtQ logQ G targetPos targetMass c3
        (f0.1 + f1.1 + f2.1 + f3.1, f0.2 + f1.2 + f2.2 + f3.2)

end Quadtree

section QuadtreeFacts

/-- One-step unfolding of the Barnes-Hut force recursion. -/
theorem calculateForceRecursive_eq (sqrtQ logQ : ℚ → ℚ) (G : ℚ)
    (targetPos : ℚ × ℚ) (targetMass : ℚ) (node : QuadtreeNode) :
    Quadtree.calculateForceRecursive sqrtQ logQ G targetPos targetMass node =
      if node.particleCount = 0 then (0, 0)
      else
        let direction :=
          (node.centerOfMass.1 - targetPos.1, node.centerOfMass.2 - targetPos.2)
        let distanceSquared := direction.1 * direction.1 + direction.2 * direction.2
        if distanceSquared ≤ 1 / 10000 then (0, 0)
        else if node.isLeaf = true ∨
            node.halfDimension * 2 / sqrtQ distanceSquared < Quadtree.THETA then
          let distance := sqrtQ distanceSquared
          let ndir := (direction.1 / distance, direction.2 / distance)
          let forceMagnitude := G * node.totalMass * targetMass / distanceSquared
          let clamped :=
            if forceMagnitude > 1000 then 1000 + logQ (forceMagnitude / 1000)
            else forceMagnitude
          (ndir.1 * clamped, ndir.2 * clamped)
        else
          match node with
          | .leaf _ _ _ _ => (0, 0)
          | .internal _ _ _ _ c0 c1 c2 c3 =>
            let f0 := Quadtree.calculateForceRecursive sqrtQ logQ G targetPos targetMass c0
            let f1 := Quadtree.calculateForceRecursive sqrtQ logQ G targetPos targetMass c1
            let f2 := Quadtree.calculateForceRecursive sqrtQ logQ G targetPos targetMass c2
            let f3 := Quadtree.calculateForceRecursive sqrtQ logQ G targetPos targetMass c3
            (f0.1 + f1.1 + f2.1 + f3.1, f0.2 + f1.2 + f2.2 + f3.2) := by
  cases node <;> rfl

end QuadtreeFacts

/-- C8: every visited non-empty node (past the self-interaction guard)
is treated as a single point mass at its centre of mass exactly when it
is a leaf or `(2*halfDimension)/distance < THETA`; an internal node
failing the criterion has all four children recursed into; and whenever
the magnitude `G*m_node*m_particle/d²` exceeds the maximum force `1000`,
the applied magnitude is `1000 + log(magnitude/1000)`. -/
theorem calculateForceRecursive_barnes_hut (sqrtQ logQ : ℚ → ℚ)
    (G px py m d2 mag : ℚ) (node : QuadtreeNode)
    (hd2def : d2 = (node.centerOfMass.1 - px) * (node.centerOfMass.1 - px) +
      (node.centerOfMass.2 - py) * (node.centerOfMass.2 - py))
    (hmag : mag = G * node.totalMass * m / d2)
    (hcount : node.particleCount ≠ 0)
    (hd2 : 1 / 10000 < d2) :
    ((node.isLeaf = true ∨ node.halfDimension * 2 / sqrtQ d2 < Quadtree.THETA) →
      Quadtree.calculateForceRecursive sqrtQ logQ G (px, py) m node =
        ((node.centerOfMass.1 - px) / sqrtQ d2 *
            (if mag > 1000 then 1000 + logQ (mag / 1000) else mag),
          (node.centerOfMass.2 - py) / sqrtQ d2 *
            (if mag > 1000 then 1000 + logQ (mag / 1000) else mag))) ∧
    ((node.isLeaf = true ∨ node.halfDimension * 2 / sqrtQ d2 < Quadtree.THETA) →
      mag > 1000 →
      Quadtree.calculateForceRecursive sqrtQ logQ G (px, py) m node =
        ((node.centerOfMass.1 - px) / sqrtQ d2 * (1000 + logQ (mag / 1000)),
          (node.centerOfMass.2 - py) / sqrtQ d2 * (1000 + logQ (mag / 1000)))) ∧
    (∀ cnt : ℕ, ∀ com : ℚ × ℚ, ∀ tm hd : ℚ, ∀ c0 c1 c2 c3 : QuadtreeNode,
      node = QuadtreeNode.internal cnt com tm hd c0 c1 c2 c3 →
      ¬(node.isLeaf = true ∨ node.halfDimension * 2 / sqrtQ d2 < Quadtree.THETA) →
      Quadtree.calculateForceRecursive sqrtQ logQ G (px, py) m node =
        ((Quadtree.calculateForceRecursive sqrtQ logQ G (px, py) m c0).1 +
            (Quadtree.calculateForceRecursive sqrtQ logQ G (px, py) m c1).1 +
            (Quadtree.calculateForceRecursive sqrtQ logQ G (px, py) m c2).1 +
            (Quadtree.calculateForceRecursive sqrtQ logQ G (px, py) m c3).1,
          (Quadtree.calculateForceRecursive sqrtQ logQ G (px, py) m c0).2 +
            (Quadtree.calculateForceRecursive sqrtQ logQ G (px, py) m c1).2 +
            (Quadtree.calculateForceRecursive sqrtQ logQ G (px, py) m c2).2 +
            (Quadtree.calculateForceRecursive sqrtQ logQ G (px, py) m c3).2)) := by
  subst hmag
  subst hd2def
  have hle : ¬((node.centerOfMass.1 - px) * (node.centerOfMass.1 - px) +
      (node.centerOfMass.2 - py) * (node.centerOfMass.2 - py) ≤ 1 / 10000) :=
    not_le.mpr hd2
  refine ⟨fun hcrit => ?_, fun hcrit hbig => ?_, ?_⟩
  · rw [calculateForceRecursive_eq]
    rw [if_neg hcount]
    dsimp only
    rw [if_neg hle, if_pos hcrit]
  · rw [calculateForceRecursive_eq]
    rw [if_neg hcount]
    dsimp only
    rw [if_neg hle, if_pos hcrit, if_pos hbig]
  · intro cnt com tm hd c0 c1 c2 c3 hnode hncrit
    subst hnode
    rw [calculateForceRecursive_eq]
    rw [if_neg hcount]
    dsimp only
    rw [if_neg hle, if_neg hncrit]

/-- Witness for C8: a singleton leaf of mass 2 at `(3, 4)` evaluated
from the origin with `sqrtQ = logQ = id`, `G = 1`, target mass 1. -/
theorem calculateForceRecursive_barnes_hut_witness :
    (((QuadtreeNode.leaf 1 (3, 4) 2 1).isLeaf = true ∨
        (QuadtreeNode.leaf 1 (3, 4) 2 1).halfDimension * 2 / id (25 : ℚ) <
          Quadtree.THETA) →
      Quadtree.calculateForceRecursive id id 1 ((0 : ℚ), (0 : ℚ)) 1
          (QuadtreeNode.leaf 1 (3, 4) 2 1) =
        (((QuadtreeNode.leaf 1 (3, 4) 2 1).centerOfMass.1 - 0) / id 25 *
            (if (1 * (QuadtreeNode.leaf 1 (3, 4) 2 1).totalMass * 1 / 25 : ℚ) > 1000 then
              1000 + id (1 * (QuadtreeNode.leaf 1 (3, 4) 2 1).totalMass * 1 / 25 / 1000)
            else 1 * (QuadtreeNode.leaf 1 (3, 4) 2 1).totalMass * 1 / 25),
          ((QuadtreeNode.leaf 1 (3, 4) 2 1).centerOfMass.2 - 0) / id 25 *
            (if (1 * (QuadtreeNode.leaf 1 (3, 4) 2 1).totalMass * 1 / 25 : ℚ) > 1000 then
              1000 + id (1 * (QuadtreeNode.leaf 1 (3, 4) 2 1).totalMass * 1 / 25 / 1000)
            else 1 * (QuadtreeNode.leaf 1 (3, 4) 2 1).totalMass * 1 / 25))) ∧
    (((QuadtreeNode.leaf 1 (3, 4) 2 1).isLeaf = true ∨
        (QuadtreeNode.leaf 1 (3, 4) 2 1).halfDimension * 2 / id (25 : ℚ) <
          Quadtree.THETA) →
      (1 * (QuadtreeNode.leaf 1 (3, 4) 2 1).totalMass * 1 / 25 : ℚ) > 1000 →
      Quadtree.calculateForceRecursive id id 1 ((0 : ℚ), (0 : ℚ)) 1
          (QuadtreeNode.leaf 1 (3, 4) 2 1) =
        (((QuadtreeNode.leaf 1 (3, 4) 2 1).centerOfMass.1 - 0) / id 25 *
            (1000 + id (1 * (QuadtreeNode.leaf 1 (3, 4) 2 1).totalMass * 1 / 25 / 1000)),
          ((QuadtreeNode.leaf 1 (3, 4) 2 1).centerOfMass.2 - 0) / id 25 *
            (1000 + id (1 * (QuadtreeNode.leaf 1 (3, 4) 2 1).totalMass * 1 / 25 / 1000)))) ∧
    (∀ cnt : ℕ, ∀ com : ℚ × ℚ, ∀ tm hd : ℚ, ∀ c0 c1 c2 c3 : QuadtreeNode,
      QuadtreeNode.leaf 1 (3, 4) 2 1 = QuadtreeNode.internal cnt com tm hd c0 c1 c2 c3 →
      ¬((QuadtreeNode.leaf 1 (3, 4) 2 1).isLeaf = true ∨
        (QuadtreeNode.leaf 1 (3, 4) 2 1).halfDimension * 2 / id (25 : ℚ) <
          Quadtree.THETA) →
      Quadtree.calculateForceRecursive id id 1 ((0 : ℚ), (0 : ℚ)) 1
          (QuadtreeNode.leaf 1 (3, 4) 2 1) =
        ((Quadtree.calculateForceRecursive id id 1 ((0 : ℚ), (0 : ℚ)) 1 c0).1 +
            (Quadtree.calculateForceRecursive id id 1 ((0 : ℚ), (0 : ℚ)) 1 c1).1 +
            (Quadtree.calculateForceRecursive id id 1 ((0 : ℚ), (0 : ℚ)) 1 c2).1 +
            (Quadtree.calculateForceRecursive id id 1 ((0 : ℚ), (0 : ℚ)) 1 c3).1,
          (Quadtree.calculateForceRecursive id id 1 ((0 : ℚ), (0 : ℚ)) 1 c0).2 +
            (Quadtree.calculateForceRecursive id id 1 ((0 : ℚ), (0 : ℚ)) 1 c1).2 +
            (Quadtree.calculateForceRecursive id id 1 ((0 : ℚ), (0 : ℚ)) 1 c2).2 +
            (Quadtree.calculateForceRecursive id id 1 ((0 : ℚ), (0 : ℚ)) 1 c3).2)) :=
  calculateForceRecursive_barnes_hut id id 1 0 0 1 25
    (1 * (QuadtreeNode.leaf 1 (3, 4) 2 1).totalMass * 1 / 25)
    (QuadtreeNode.leaf 1 (3, 4) 2 1) (by norm_num [QuadtreeNode.centerOfMass]) rfl
    (by norm_num [QuadtreeNode.particleCount]) (by norm_num)

namespace Particle

/-- Tempering transform of `std::mt19937` (the engine is fully specified
by the C++ standard's `mersenne_twister_engine` parameters). -/
def mtTemper (y : ℕ) : ℕ :=
  let y1 := y ^^^ (y >>> 11)
  let y2 := y1 ^^^ ((y1 <<< 7) &&& 0x9D2C5680)
  let y3 := y2 ^^^ ((y2 <<< 15) &&& 0xEFC60000)
  y3 ^^^ (y3 >>> 18)

/-- Remaining words of the `std::mt19937` seed initialisation:
`mt[i] = (1812433253 * (mt[i-1] xor (mt[i-1] >> 30)) + i) mod 2^32`. -/
def mtInitAux (prev i : ℕ) : ℕ → List ℕ
  | 0 => []
  | n + 1 =>
    let w := (1812433253 * (prev ^^^ (prev >>> 30)) + i) % 4294967296
    w :: mtInitAux w (i + 1) n

/-- 624-word state of `std::mt19937` after seeding with `seed`. -/
def mtInit (seed : ℕ) : List ℕ :=
  (seed % 4294967296) :: mtInitAux (seed % 4294967296) 1 623

/-- One raw twist combination: sign bit of the current word, lower bits
of the following word, conditional xor with `0x9908B0DF`, xor with the
word 397 positions ahead. -/
def mtTwistRaw (cur next far : ℕ) : ℕ :=
  let x := (cur &&& 0x80000000) ||| (next &&& 0x7FFFFFFF)
  let xa := if x % 2 = 1 then (x >>> 1) ^^^ 0x9908B0DF else x >>> 1
  far ^^^ xa

/-- Word `i` of the twisted block, with the in-place semantics of the
standard block twist: for `i ≥ 227` the word `397` positions ahead
(mod 624) has already been twisted in place, and for `i = 623` so has
the following word (index 0); the recursion depth is at most three, so
the cases are written out. -/
def mtTwistedWord (st : List ℕ) (i : ℕ) : ℕ :=
  if i < 227 then
    mtTwistRaw (st.getD i 0) (st.getD (i + 1) 0) (st.getD (i + 397) 0)
  else if i < 454 then
    mtTwistRaw (st.getD i 0) (st.getD (i + 1) 0)
      (mtTwistRaw (st.getD (i - 227) 0) (st.getD (i - 226) 0) (st.getD (i + 170) 0))
  else if i < 623 then
    mtTwistRaw (st.getD i 0) (st.getD (i + 1) 0)
      (mtTwistRaw (st.getD (i - 227) 0) (st.getD (i - 226) 0)
        (mtTwistRaw (st.getD (i - 454) 0) (st.getD (i - 453) 0) (st.getD (i - 57) 0)))
  else
    mtTwistRaw (st.getD 623 0)
      (mtTwistRaw (st.getD 0 0) (st.getD 1 0) (st.getD 397 0))
      (mtTwistRaw (st.getD 396 0) (st.getD 397 0)
        (mtTwistRaw (st.getD 169 0) (st.getD 170 0) (st.getD 566 0)))

/-- The fully twisted next 624-word block. -/
def mtNextState (st : List ℕ) : List ℕ := (List.range 624).map (mtTwistedWord st)

/-- The `n`-th 32-bit output of `std::mt19937` seeded with `seed`
(the engine twists a block and then emits its tempered words in order). -/
def mt19937Output (seed n : ℕ) : ℕ :=
  mtTemper (mtTwistedWord (mtNextState^[n / 624] (mtInit seed)) (n % 624))

/-- Modelled from the library: `std::uniform_real_distribution<float>(-1, 1)`
has an implementation-defined algorithm; it is modelled as the affine
image of a single 32-bit engine draw, `-1 + 2*u/2^32 ∈ [-1, 1)`. -/
def uniformNeg1To1 (u : ℕ) : ℚ :=
  -1 + 2 * ((u % 4294967296 : ℕ) : ℚ) / 4294967296

/-- Seed of worker `t`'s generator in
`Particle::randomizeInteractionMatrix`:
`rd() ^ (t * 0x9e3779b97f4a7c15ULL)` with 64-bit wrap-around, where
`entropy t` is the `t`-th draw of `std::random_device` — note there is
no caller-supplied seed anywhere in this path. -/
def workerSeed (entropy : ℕ → ℕ) (t : ℕ) : ℕ :=
  (entropy t % 4294967296) ^^^ ((t * 11400714819323198485) % 18446744073709551616)

/-- One matrix cell of `Particle::randomizeInteractionMatrix` under the
OpenMP `collapse(2) schedule(static)` decomposition: flat cell
`i*k + j` belongs to worker `idx / chunk` with `chunk = ceil(k²/T)` and
is that worker's `idx % chunk`-th draw from its own generator. -/
def randomizedCell (entropy : ℕ → ℕ) (numThreads k i j : ℕ) : ℚ :=
  let idx := i * k + j
  let chunk := (k * k + numThreads - 1) / numThreads
  let t := idx / chunk
  let pos := idx % chunk
  uniformNeg1To1 (mt19937Output (workerSeed entropy t) pos)

/-- Translation of `Particle::randomizeInteractionMatrix`: every cell of
the `k × k` matrix is filled with a uniform `[-1, 1]` draw from the
per-worker `std::mt19937` that owns the cell; the generators are seeded
afresh from `std::random_device` on every call, modelled by the
`entropy` stream. -/
def randomizeInteractionMatrix (entropy : ℕ → ℕ) (numThreads k : ℕ) :
    List (List ℚ) :=
  (List.range k).map fun i =>
    (List.range k).map fun j => randomizedCell entropy numThreads k i j

end Particle

section RandomizeFacts

/-- The worker owning any cell of the static schedule is a valid worker
index below the thread count. -/
theorem randomize_thread_lt (T k i j : ℕ) (hT : 1 ≤ T) (hi : i < k) (hj : j < k) :
    (i * k + j) / ((k * k + T - 1) / T) < T := by
  have hidx : i * k + j < k * k := by
    have h1 : (i + 1) * k = i * k + k := Nat.succ_mul i k
    have h2 : (i + 1) * k ≤ k * k := Nat.mul_le_mul_right k (by omega)
    omega
  have hTpos : 0 < T := hT
  have hca := Nat.div_add_mod (k * k + T - 1) T
  have hmod : (k * k + T - 1) % T < T := Nat.mod_lt _ hTpos
  have hTc : k * k ≤ T * ((k * k + T - 1) / T) := by omega
  have hcpos : 0 < (k * k + T - 1) / T := by
    by_contra hc
    push_neg at hc
    have h0 : (k * k + T - 1) / T = 0 := Nat.le_zero.mp hc
    rw [h0, Nat.mul_zero] at hTc
    omega
  exact (Nat.div_lt_iff_lt_mul hcpos).mpr (lt_of_lt_of_le hidx hTc)

end RandomizeFacts

section RandomizeClaims

/-- Counterexample to C4 as stated: `Particle::randomizeInteractionMatrix`
takes no seed; with one type and one worker, two calls whose
`std::random_device` draws differ (`0` versus `1`) — everything a caller
can fix being identical — produce different matrices, so the
randomization is not a deterministic function of any supplied seed. -/
theorem randomizeInteractionMatrix_not_seed_deterministic :
    Particle.randomizeInteractionMatrix (fun _ => 0) 1 1 ≠
      Particle.randomizeInteractionMatrix (fun _ => 1) 1 1 := by
  have h0 : Particle.randomizeInteractionMatrix (fun _ => 0) 1 1 =
      [[Particle.uniformNeg1To1 2357136044]] := by
    have hm : Particle.mt19937Output (Particle.workerSeed (fun _ => 0) 0) 0 =
        2357136044 := by decide
    show [[Particle.uniformNeg1To1
        (Particle.mt19937Output (Particle.workerSeed (fun _ => 0) 0) 0)]] = _
    rw [hm]
  have h1 : Particle.randomizeInteractionMatrix (fun _ => 1) 1 1 =
      [[Particle.uniformNeg1To1 1791095845]] := by
    have hm : Particle.mt19937Output (Particle.workerSeed (fun _ => 1) 0) 0 =
        1791095845 := by decide
    show [[Particle.uniformNeg1To1
        (Particle.mt19937Output (Particle.workerSeed (fun _ => 1) 0) 0)]] = _
    rw [hm]
  intro heq
  rw [h0, h1] at heq
  have hcell : Particle.uniformNeg1To1 2357136044 =
      Particle.uniformNeg1To1 1791095845 := by
    simpa using heq
  norm_num [Particle.uniformNeg1To1] at hcell

/-- C4 (amended): the randomization is deterministic in the per-worker
`std::random_device` draws — two calls seeing the same draws for every
worker produce the identical matrix — and every cell lies in `[-1, 1]`;
but, the draws being fresh on every call, no caller-supplied seed
exists that makes repeated calls reproducible. -/
theorem randomizeInteractionMatrix_deterministic_in_entropy
    (e1 e2 : ℕ → ℕ) (T k : ℕ) (hT : 1 ≤ T) (he : ∀ t < T, e1 t = e2 t) :
    Particle.randomizeInteractionMatrix e1 T k =
      Particle.randomizeInteractionMatrix e2 T k ∧
    (∀ i j : ℕ, i < k → j < k →
      -1 ≤ Particle.randomizedCell e1 T k i j ∧
        Particle.randomizedCell e1 T k i j < 1) := by
  constructor
  · unfold Particle.randomizeInteractionMatrix
    apply List.map_congr_left
    intro i hi
    apply List.map_congr_left
    intro j hj
    have hi2 : i < k := List.mem_range.mp hi
    have hj2 : j < k := List.mem_range.mp hj
    unfold Particle.randomizedCell
    dsimp only
    have ht : (i * k + j) / ((k * k + T - 1) / T) < T :=
      randomize_thread_lt T k i j hT hi2 hj2
    rw [show Particle.workerSeed e1 ((i * k + j) / ((k * k + T - 1) / T)) =
        Particle.workerSeed e2 ((i * k + j) / ((k * k + T - 1) / T)) by
      unfold Particle.workerSeed
      rw [he _ ht]]
  · intro i j hi hj
    unfold Particle.randomizedCell Particle.uniformNeg1To1
    set u := Particle.mt19937Output
      (Particle.workerSeed e1 ((i * k + j) / ((k * k + T - 1) / T)))
      ((i * k + j) % ((k * k + T - 1) / T)) with hu
    have hlt : u % 4294967296 < 4294967296 := Nat.mod_lt _ (by norm_num)
    have h0 : (0 : ℚ) ≤ ((u % 4294967296 : ℕ) : ℚ) := Nat.cast_nonneg _
    have h1 : ((u % 4294967296 : ℕ) : ℚ) < 4294967296 := by exact_mod_cast hlt
    constructor
    · have : (0 : ℚ) ≤ 2 * ((u % 4294967296 : ℕ) : ℚ) / 4294967296 := by positivity
      linarith
    · rw [show (-1 : ℚ) + 2 * ((u % 4294967296 : ℕ) : ℚ) / 4294967296 < 1 ↔
          2 * ((u % 4294967296 : ℕ) : ℚ) / 4294967296 < 2 by constructor <;> intro <;> linarith]
      rw [div_lt_iff (by norm_num : (0 : ℚ) < 4294967296)]
      linarith

/-- Witness for the amended C4 with a concrete entropy stream, one
worker and one particle type. -/
theorem randomizeInteractionMatrix_deterministic_in_entropy_witness :
    Particle.randomizeInteractionMatrix (fun _ => 7) 1 1 =
      Particle.randomizeInteractionMatrix (fun n => 7) 1 1 ∧
    (∀ i j : ℕ, i < 1 → j < 1 →
      -1 ≤ Particle.randomizedCell (fun _ => 7) 1 1 i j ∧
        Particle.randomizedCell (fun _ => 7) 1 1 i j < 1) :=
  randomizeInteractionMatrix_deterministic_in_entropy (fun _ => 7) (fun n => 7) 1 1
    (by norm_num) (fun t _ => rfl)

end RandomizeClaims
